import Mathlib

/-!
Shallow embedding of `src/cpu-affinity-hook.py`: a Proxmox lifecycle hook
that sets CPU frequency governors for the cores a VM is pinned to.

Python exceptions are modelled by `PyErr`; the cluster API (proxmoxer) is
modelled as pure data in a `World` record; the per-core sysfs governor
files are modelled by a `GovSys` record.  String-handling built-ins
(`str.isnumeric`, `int`, `str.split`) are modelled for ASCII input, which
is the domain of affinity strings.
-/

deriving instance DecidableEq for Except

namespace CpuHook

/-- Python exceptions that the hook's code paths can raise.
`osError` stands for any failure of the sysfs write
(PermissionDenied / CoreNotFound). -/
inductive PyErr where
  | keyError
  | valueError
  | attributeError
  | osError
deriving DecidableEq, Repr

/-- `GovState(enum.StrEnum)`: the six Linux CPU governor policies. -/
inductive GovState where
  | performance
  | powersave
  | userspace
  | ondemand
  | conservative
  | schedutil
deriving DecidableEq, Repr

/-- The canonical lowercase string value of a `GovState` member
(`enum.auto` on a `StrEnum` yields the lowercased member name). -/
def GovState.value : GovState → String
  | .performance => "performance"
  | .powersave => "powersave"
  | .userspace => "userspace"
  | .ondemand => "ondemand"
  | .conservative => "conservative"
  | .schedutil => "schedutil"

/-- The `GovState(x)` coercion: succeeds exactly on the six member values,
raises `ValueError` (modelled as `none`) on anything else. -/
def GovState.ofString? (s : String) : Option GovState :=
  if s = "performance" then some .performance
  else if s = "powersave" then some .powersave
  else if s = "userspace" then some .userspace
  else if s = "ondemand" then some .ondemand
  else if s = "conservative" then some .conservative
  else if s = "schedutil" then some .schedutil
  else none

/-- ASCII decimal digit test. -/
def isAsciiDigit (c : Char) : Bool :=
  '0' ≤ c && c ≤ '9'

/-- Model of Python `str.isnumeric()` on a character list, restricted to
ASCII input: nonempty and all decimal digits. -/
def pyIsNumericC (cs : List Char) : Bool :=
  !cs.isEmpty && cs.all isAsciiDigit

/-- Model of Python `str.isnumeric()` on strings. -/
def pyIsNumeric (s : String) : Bool :=
  pyIsNumericC s.data

/-- Decimal value of a digit list. -/
def natOfDigits (cs : List Char) : Nat :=
  cs.foldl (fun n c => 10 * n + (c.toNat - 48)) 0

/-- Model of Python `int(str)`, restricted to ASCII without surrounding
whitespace or underscores: an optional single sign followed by one or more
decimal digits; anything else raises `ValueError` (modelled as `none`). -/
def pyInt? (cs : List Char) : Option Int :=
  if cs.isEmpty then none
  else if cs.headD ' ' = '-' then
    if pyIsNumericC cs.tail then some (-(natOfDigits cs.tail : Int)) else none
  else if cs.headD ' ' = '+' then
    if pyIsNumericC cs.tail then some (natOfDigits cs.tail : Int) else none
  else if pyIsNumericC cs then some (natOfDigits cs : Int) else none

/-- Model of Python `s.split('-', 1)` when the result is unpacked into two
names: `some (before, after)` on the first `'-'`, and `none` when `s` has
no `'-'` at all (in which case the unpacking raises `ValueError`). -/
def splitFirstDash : List Char → Option (List Char × List Char)
  | [] => none
  | c :: rest =>
    if c = '-' then some ([], rest)
    else match splitFirstDash rest with
      | some (a, b) => some (c :: a, b)
      | none => none

/-- Model of Python `range(s, e)` as a list: the integers of the half-open
interval `[s, e)`, empty when `e ≤ s`. -/
def pyRange (s e : Int) : List Int :=
  (List.range (e - s).toNat).map (fun i => s + i)

/-- Model of Python `s.split(sep)` for a one-character separator: split on
every occurrence, keeping empty pieces; the empty string yields one empty
piece. -/
def splitOnSep (sep : Char) : List Char → List (List Char)
  | [] => [[]]
  | c :: rest =>
    match splitOnSep sep rest with
    | [] => [[]]
    | t :: ts => if c = sep then [] :: t :: ts else (c :: t) :: ts

/-- One iteration of the loop body of `ProxmoxVMs.affinities` for a single
comma-separated token: a numeric token yields its single core index;
otherwise the token is split on the first `'-'` (raising `ValueError` if
there is none) and both parts are passed to `int` (raising `ValueError` on
failure), yielding `range(start, end)`. -/
def parseToken (t : List Char) : Except PyErr (List Int) :=
  if pyIsNumericC t then .ok [(natOfDigits t : Int)]
  else match splitFirstDash t with
    | none => .error .valueError
    | some (a, b) =>
      match pyInt? a, pyInt? b with
      | some s, some e => .ok (pyRange s e)
      | _, _ => .error .valueError

/-- The token loop of `ProxmoxVMs.affinities` as a generator run: the cores
yielded before any failure, paired with the error, if any, that ends the
iteration. -/
def parseTokens : List (List Char) → List Int × Option PyErr
  | [] => ([], none)
  | t :: ts =>
    match parseToken t with
    | .ok cores =>
      let rest := parseTokens ts
      (cores ++ rest.1, rest.2)
    | .error e => ([], some e)

/-- The result of fetching a VM's configuration from the cluster API
(`api.nodes(node).qemu(vm_id).config.get()`): the hook only reads the
`affinity` field; `none` models a config dict without that key (or with
Python `None` there). -/
structure VmConfig where
  affinity : Option String
deriving DecidableEq, Repr

/-- One cluster node as reported by `api.nodes.get()`: its name, its
status string, and the VM ids its per-node `qemu.get()` listing reports
(in listing order). -/
structure Node where
  name : String
  status : String
  vmids : List Int
deriving DecidableEq, Repr

/-- The live cluster as seen through the proxmoxer API during one hook
invocation: the node listing, plus the per-(node, vm) config and status
endpoints. -/
structure World where
  nodes : List Node
  vmConfig : String → Int → VmConfig
  vmStatus : String → Int → String

/-- `ProxmoxVMs.get_locations`: every non-offline node's name paired with
each VM id it hosts, in listing order. -/
def get_locations (w : World) : List (String × Int) :=
  (w.nodes.filter (fun n => n.status != "offline")).flatMap
    (fun n => n.vmids.map (fun vid => (n.name, vid)))

/-- `ProxmoxVMs.get_node_by_vm_id`: the first node listing the id; raises
`KeyError` when no node does. -/
def get_node_by_vm_id (w : World) (vm_id : Int) : Except PyErr String :=
  match (get_locations w).find? (fun p => p.2 == vm_id) with
  | some (node, _) => .ok node
  | none => .error .keyError

/-- `ProxmoxVMs.__getitem__`: scan the locations for the first node hosting
`vm_id` and fetch that VM's config; raises `KeyError` when no node hosts
it. -/
def getitem (w : World) (vm_id : Int) : Except PyErr VmConfig :=
  match (get_locations w).find? (fun p => p.2 == vm_id) with
  | some (node, _) => .ok (w.vmConfig node vm_id)
  | none => .error .keyError

/-- `ProxmoxVMs.get`: `self[vm_id]` with `KeyError` suppressed, returning
the supplied default instead.  The Python default is `Any`; it is modelled
as `Option VmConfig` so the default `None` is `none`. -/
def get (w : World) (vm_id : Int) (default : Option VmConfig) :
    Option VmConfig :=
  match getitem w vm_id with
  | .ok c => some c
  | .error _ => default

/-- `ProxmoxVMs.is_stopped`: locate the first node hosting the id; if none
does, the VM is treated as stopped; otherwise compare the live status
string with `"stopped"`. -/
def is_stopped (w : World) (vm_id : Int) : Bool :=
  match (get_locations w).find? (fun p => p.2 == vm_id) with
  | none => true
  | some (node, _) => w.vmStatus node vm_id == "stopped"

/-- `ProxmoxVMs.affinities` as a generator run: the cores yielded before
any failure, paired with the error, if any, that ends the iteration.  A
missing VM raises `KeyError` before any core is yielded; a falsy affinity
field (absent or the empty string) yields nothing via `return []`;
otherwise the comma-separated tokens are processed in order. -/
def affinities (w : World) (vm_id : Int) : List Int × Option PyErr :=
  match getitem w vm_id with
  | .error e => ([], some e)
  | .ok vm_config =>
    match vm_config.affinity with
    | none => ([], none)
    | some s =>
      if s = "" then ([], none)
      else parseTokens (splitOnSep ',' s.data)

/-- The per-core sysfs governor files: the current contents of each core's
`scaling_governor` file, and whether a write to that core's file succeeds
(`false` models PermissionDenied or an absent core). -/
structure GovSys where
  gov : Int → String
  writable : Int → Bool

/-- The state change of a successful `set_cpu_governor_state` call:
overwrite the core's governor file with the state's lowercase value. -/
def writeGov (sys : GovSys) (cpu_num : Int) (state : GovState) : GovSys :=
  { sys with gov := fun c => if c = cpu_num then state.value else sys.gov c }

/-- `set_cpu_governor_state(cpu_num, state)`: writing `state.lower()` to
the core's governor file.  A Python `None` state (possible for
`Config.stopped_state`) raises `AttributeError` before any write; a
rejected write raises an OS-level error and leaves the file unchanged. -/
def set_cpu_governor_state (cpu_num : Int) (state : Option GovState)
    (sys : GovSys) : Except PyErr GovSys :=
  match state with
  | none => .error .attributeError
  | some st =>
    if sys.writable cpu_num then .ok (writeGov sys cpu_num st)
    else .error .osError

/-- The write loop shared by `on_start` and `on_stop`: set each core of the
list in order, stopping at the first failure.  Returns the performed
writes (core, written string), the final sysfs state, and the error, if
any, that ended the loop. -/
def runWrites (state : Option GovState) (sys : GovSys) :
    List Int → List (Int × String) × GovSys × Option PyErr
  | [] => ([], sys, none)
  | c :: cs =>
    match set_cpu_governor_state c state sys with
    | .ok sys2 =>
      let rest := runWrites state sys2 cs
      ((c, sys2.gov c) :: rest.1, rest.2)
    | .error e => ([], sys, some e)

/-- The resolved `Config` record after `__post_init__`: `stopped_state`
is `Option GovState` because the `is not None` guard in `__post_init__`
lets a `None` input through unvalidated. -/
structure Config where
  user : String
  password : String
  started_state : GovState
  stopped_state : Option GovState
  hostname : String
  verify_tls : Bool
deriving DecidableEq, Repr

/-- `Config(...)` construction including `__post_init__`: the governor
inputs arrive as Python values (`none` models `None`, `some s` a string or
`StrEnum` member, which is itself a string).  `started_state` is always
re-coerced through `GovState(...)`; `stopped_state` is re-coerced only
when it is not `None`. -/
def mkConfig (user password : String) (started stopped : Option String)
    (hostname : String) (verify_tls : Bool) : Except PyErr Config :=
  match started with
  | none => .error .valueError
  | some s =>
    match GovState.ofString? s with
    | none => .error .valueError
    | some gs =>
      match stopped with
      | none =>
        .ok ⟨user, password, gs, none, hostname, verify_tls⟩
      | some t =>
        match GovState.ofString? t with
        | none => .error .valueError
        | some gt =>
          .ok ⟨user, password, gs, some gt, hostname, verify_tls⟩

/-- `on_start`: drive every core of `affinities(vm_id)` to
`config.started_state`.  Because `affinities` is a generator, a parse
error surfaces only after the writes for the cores yielded before it. -/
def on_start (config : Config) (w : World) (vm_id : Int) (sys : GovSys) :
    List (Int × String) × GovSys × Option PyErr :=
  let aff := affinities w vm_id
  let run := runWrites (some config.started_state) sys aff.1
  match run.2.2 with
  | some e => (run.1, run.2.1, some e)
  | none => (run.1, run.2.1, aff.2)

/-- `on_stop`: drive every core of `affinities(vm_id)` to
`config.stopped_state`, with the same generator interleaving as
`on_start`. -/
def on_stop (config : Config) (w : World) (vm_id : Int) (sys : GovSys) :
    List (Int × String) × GovSys × Option PyErr :=
  let aff := affinities w vm_id
  let run := runWrites config.stopped_state sys aff.1
  match run.2.2 with
  | some e => (run.1, run.2.1, some e)
  | none => (run.1, run.2.1, aff.2)

/-- The cumulative sysfs effect of successfully writing `state` to each
core of a list in order. -/
def applyWrites (state : GovState) (sys : GovSys) (cores : List Int) :
    GovSys :=
  cores.foldl (fun s c => writeGov s c state) sys

/-- Following the spec's words for the parsing contract: a token is
well-formed when it is entirely numeric, or is a `start-end` range whose
first `-` splits it into a numeric start and a numeric end. -/
def specTokenWF (t : List Char) : Bool :=
  pyIsNumericC t ||
    (match splitFirstDash t with
     | some (a, b) => pyIsNumericC a && pyIsNumericC b
     | none => false)

/-- Following the spec's words for the parsing contract: a numeric token
denotes the single index it spells; a `start-end` range token denotes
every integer of the half-open interval `[start, end)`. -/
def specTokenDenote (t : List Char) : List Int :=
  if pyIsNumericC t then [(natOfDigits t : Int)]
  else match splitFirstDash t with
    | some (a, b) => pyRange (natOfDigits a) (natOfDigits b)
    | none => []

/-- Concrete cluster used by the witnesses: one online node `pve1`
hosting VM 100, whose config carries the affinity string `0,2-4` and
whose live status is `running`. -/
def w0 : World where
  nodes := [⟨"pve1", "online", [100]⟩]
  vmConfig := fun _ _ => ⟨some "0,2-4"⟩
  vmStatus := fun _ _ => "running"

/-- Concrete sysfs state used by the witnesses: every core currently at
`schedutil`, every write accepted. -/
def sys0 : GovSys where
  gov := fun _ => "schedutil"
  writable := fun _ => true

/-- Concrete sysfs state used by the witnesses: writes to core 3 are
rejected, all others accepted. -/
def sysF : GovSys where
  gov := fun _ => "schedutil"
  writable := fun c => c != 3

/-- Concrete cluster used by the witnesses: one online node hosting VM 7
whose config has no affinity field. -/
def wE : World where
  nodes := [⟨"pve1", "online", [7]⟩]
  vmConfig := fun _ _ => ⟨none⟩
  vmStatus := fun _ _ => "running"

/-- Concrete configuration used by the witnesses. -/
def cfg0 : Config where
  user := "u"
  password := "p"
  started_state := .performance
  stopped_state := some .schedutil
  hostname := "localhost"
  verify_tls := false

theorem pyInt_of_numeric {cs : List Char} (h : pyIsNumericC cs = true) :
    pyInt? cs = some ((natOfDigits cs : Int)) := by
  match cs with
  | [] => simp [pyIsNumericC] at h
  | c :: rest =>
    have hall : (c :: rest).all isAsciiDigit = true :=
      ((Bool.and_eq_true _ _).mp h).2
    have hd : isAsciiDigit c = true :=
      List.all_eq_true.mp hall c (List.mem_cons_self c rest)
    have h1 : c ≠ '-' := by
      intro he; rw [he] at hd; exact absurd hd (by decide)
    have h2 : c ≠ '+' := by
      intro he; rw [he] at hd; exact absurd hd (by decide)
    simp [pyInt?, h1, h2, h]

theorem parseToken_wf {t : List Char} (h : specTokenWF t = true) :
    parseToken t = .ok (specTokenDenote t) := by
  unfold specTokenWF at h
  unfold parseToken specTokenDenote
  cases hn : pyIsNumericC t with
  | true => simp [hn]
  | false =>
    rw [hn] at h
    simp only [Bool.false_or] at h
    cases hs : splitFirstDash t with
    | none => rw [hs] at h; simp at h
    | some ab =>
      obtain ⟨a, b⟩ := ab
      rw [hs] at h
      simp only [Bool.and_eq_true] at h
      simp [hn, hs, pyInt_of_numeric h.1, pyInt_of_numeric h.2]

theorem parseTokens_wf {ts : List (List Char)}
    (h : ∀ t ∈ ts, specTokenWF t = true) :
    parseTokens ts = (ts.flatMap specTokenDenote, none) := by
  induction ts with
  | nil => rfl
  | cons t ts ih =>
    have ht := h t (List.mem_cons_self t ts)
    have hts : ∀ x ∈ ts, specTokenWF x = true :=
      fun x hx => h x (List.mem_cons_of_mem _ hx)
    simp [parseTokens, parseToken_wf ht, ih hts]

/-- C2: an affinity string all of whose comma-separated tokens are either
entirely numeric or a `start-end` range with numeric start and end parses,
without error, to the concatenation in token order (duplicates kept) of
the singleton index for each numeric token and the half-open interval
`[start, end)` for each range token. -/
theorem affinity_parse_wellformed (s : String)
    (h : ∀ t ∈ splitOnSep ',' s.data, specTokenWF t = true) :
    parseTokens (splitOnSep ',' s.data) =
      ((splitOnSep ',' s.data).flatMap specTokenDenote, none) :=
  parseTokens_wf h

theorem affinity_parse_wellformed_witness :
    parseTokens (splitOnSep ',' "0,2-4,7".data) = ([0, 2, 3, 7], none) := by
  have h := affinity_parse_wellformed "0,2-4,7" (by decide)
  exact h.trans (by decide)

/-- C7 counterexample: the token `abc` is neither numeric nor a
well-formed range, and parsing it raises `ValueError` (from unpacking
`split('-', 1)` into two names) instead of completing without failure. -/
theorem malformed_token_raises :
    parseTokens (splitOnSep ',' "abc".data) = ([], some PyErr.valueError) := by
  decide

/-- C7 amended: parsing performs no special validation of range bounds —
a non-numeric token parses successfully exactly when its first `-` splits
it into two parts both accepted by `int()` (so `start > end` or negative
bounds are accepted, contributing zero or more cores); every other
malformed token raises `ValueError` rather than completing without
failure. -/
theorem malformed_token_amended (t : List Char)
    (hnum : pyIsNumericC t = false) :
    (∃ l, parseToken t = Except.ok l) ↔
      ∃ a b va vb, splitFirstDash t = some (a, b) ∧
        pyInt? a = some va ∧ pyInt? b = some vb := by
  unfold parseToken
  rw [hnum]
  cases hs : splitFirstDash t with
  | none => simp
  | some ab =>
    obtain ⟨a, b⟩ := ab
    cases hva : pyInt? a with
    | none => simp [hva]
    | some va =>
      cases hvb : pyInt? b with
      | none => simp [hva, hvb]
      | some vb =>
        refine iff_of_true ⟨pyRange va vb, ?_⟩ ⟨a, b, va, vb, rfl, hva, hvb⟩
        simp [hva, hvb]

theorem malformed_token_amended_witness :
    ∃ l, parseToken ("9-7".data) = Except.ok l :=
  (malformed_token_amended ("9-7".data) (by decide)).mpr
    ⟨"9".data, "7".data, 9, 7, by decide, by decide, by decide⟩

theorem pyRange_of_ge {s e : Int} (h : e ≤ s) : pyRange s e = [] := by
  unfold pyRange
  have h0 : (e - s).toNat = 0 := Int.toNat_of_nonpos (by omega)
  rw [h0]
  rfl

theorem splitFirstDash_append {a b : List Char} (h : ∀ c ∈ a, c ≠ '-') :
    splitFirstDash (a ++ '-' :: b) = some (a, b) := by
  induction a with
  | nil => simp [splitFirstDash]
  | cons c cs ih =>
    have hc : c ≠ '-' := h c (List.mem_cons_self c cs)
    have ih2 := ih (fun x hx => h x (List.mem_cons_of_mem _ hx))
    simp [splitFirstDash, hc, ih2]

theorem pyIsNumericC_append_dash (a b : List Char) :
    pyIsNumericC (a ++ '-' :: b) = false := by
  have hdash : isAsciiDigit '-' = false := by decide
  simp [pyIsNumericC, hdash]

/-- C8: a range token `start-end` with numeric start and end and
`start > end` parses, without error, to zero core indices. -/
theorem range_start_gt_end_empty (a b : List Char)
    (ha : pyIsNumericC a = true) (hb : pyIsNumericC b = true)
    (hgt : natOfDigits b < natOfDigits a) :
    parseToken (a ++ '-' :: b) = .ok [] := by
  have hall : a.all isAsciiDigit = true := ((Bool.and_eq_true _ _).mp ha).2
  have hdash : ∀ c ∈ a, c ≠ '-' := by
    intro c hc he
    have hd := List.all_eq_true.mp hall c hc
    rw [he] at hd
    exact absurd hd (by decide)
  have hle : (natOfDigits b : Int) ≤ (natOfDigits a : Int) := by
    exact_mod_cast le_of_lt hgt
  unfold parseToken
  rw [pyIsNumericC_append_dash]
  simp [splitFirstDash_append hdash, pyInt_of_numeric ha, pyInt_of_numeric hb,
    pyRange_of_ge hle]

theorem range_start_gt_end_empty_witness :
    parseToken ("5-3".data) = Except.ok [] := by
  have heq : "5-3".data = "5".data ++ '-' :: "3".data := by decide
  rw [heq]
  exact range_start_gt_end_empty "5".data "3".data (by decide) (by decide)
    (by decide)

theorem writeGov_writable (sys : GovSys) (c : Int) (st : GovState) :
    (writeGov sys c st).writable = sys.writable := rfl

theorem writeGov_gov_self (sys : GovSys) (c : Int) (st : GovState) :
    (writeGov sys c st).gov c = st.value := by
  simp [writeGov]

theorem applyWrites_cons (st : GovState) (sys : GovSys) (c : Int)
    (cs : List Int) :
    applyWrites st sys (c :: cs) = applyWrites st (writeGov sys c st) cs :=
  rfl

theorem applyWrites_not_mem {st : GovState} {sys : GovSys} {cores : List Int}
    {c : Int} (h : c ∉ cores) :
    (applyWrites st sys cores).gov c = sys.gov c := by
  induction cores generalizing sys with
  | nil => rfl
  | cons d ds ih =>
    have hne : c ≠ d := fun he => h (by simp [he])
    rw [applyWrites_cons, ih (fun hc => h (List.mem_cons_of_mem _ hc))]
    simp [writeGov, hne]

theorem runWrites_all_ok {st : GovState} {cores : List Int} {sys : GovSys}
    (h : ∀ c ∈ cores, sys.writable c = true) :
    runWrites (some st) sys cores =
      (cores.map (fun c => (c, st.value)), applyWrites st sys cores, none) := by
  induction cores generalizing sys with
  | nil => rfl
  | cons c cs ih =>
    have hc : sys.writable c = true := h c (List.mem_cons_self c cs)
    have hcs : ∀ x ∈ cs, (writeGov sys c st).writable x = true :=
      fun x hx => h x (List.mem_cons_of_mem _ hx)
    simp [runWrites, set_cpu_governor_state, hc, ih hcs, applyWrites_cons,
      writeGov_gov_self]

theorem runWrites_fail {st : GovState} {cores : List Int} {sys : GovSys}
    {k : Nat} (hk : k < cores.length)
    (hpre : ∀ c ∈ cores.take k, sys.writable c = true)
    (hfail : sys.writable cores[k] = false) :
    runWrites (some st) sys cores =
      ((cores.take k).map (fun c => (c, st.value)),
        applyWrites st sys (cores.take k), some .osError) := by
  induction cores generalizing sys k with
  | nil => exact absurd hk (by simp)
  | cons c cs ih =>
    cases k with
    | zero =>
      simp only [List.getElem_cons_zero] at hfail
      simp [runWrites, set_cpu_governor_state, hfail, applyWrites]
    | succ k =>
      have hc : sys.writable c = true := hpre c (by simp)
      have hk2 : k < cs.length := by simpa using hk
      have hpre2 : ∀ x ∈ cs.take k, (writeGov sys c st).writable x = true :=
        fun x hx => hpre x (by simp [hx])
      have hfail2 : (writeGov sys c st).writable cs[k] = false := by
        simpa using hfail
      simp [runWrites, set_cpu_governor_state, hc, ih hk2 hpre2 hfail2,
        applyWrites_cons, writeGov_gov_self]

/-- C1: when the resolved affinity list of a VM is `cores` (parsed without
error) and every write is accepted, `on_start` performs exactly one
governor write per listed core, in parsing order with duplicates repeated,
each with `config.started_state`, and `on_stop` performs the same writes
with `config.stopped_state`. -/
theorem on_start_on_stop_writes (cfg : Config) (w : World) (vm_id : Int)
    (sys : GovSys) (cores : List Int) (stp : GovState)
    (haff : affinities w vm_id = (cores, none))
    (hw : ∀ c ∈ cores, sys.writable c = true)
    (hstop : cfg.stopped_state = some stp) :
    on_start cfg w vm_id sys =
      (cores.map (fun c => (c, cfg.started_state.value)),
        applyWrites cfg.started_state sys cores, none) ∧
    on_stop cfg w vm_id sys =
      (cores.map (fun c => (c, stp.value)), applyWrites stp sys cores,
        none) := by
  constructor
  · simp [on_start, haff, runWrites_all_ok hw]
  · simp [on_stop, haff, hstop, runWrites_all_ok hw]

theorem on_start_on_stop_writes_witness :
    (on_start cfg0 w0 100 sys0).1 =
      [(0, "performance"), (2, "performance"), (3, "performance")] ∧
    (on_start cfg0 w0 100 sys0).2.2 = none ∧
    (on_stop cfg0 w0 100 sys0).1 =
      [(0, "schedutil"), (2, "schedutil"), (3, "schedutil")] ∧
    (on_stop cfg0 w0 100 sys0).2.2 = none := by
  have h := on_start_on_stop_writes cfg0 w0 100 sys0 [0, 2, 3]
    GovState.schedutil (by decide) (by decide) rfl
  exact ⟨by rw [h.1]; rfl, by rw [h.1], by rw [h.2]; rfl, by rw [h.2]⟩

/-- C5: if a governor write is rejected at position `k` of the resolved
core list, `on_start`/`on_stop` have applied the writes for the cores
before position `k`, have left every core not among those untouched (no
rollback), and surface that first failure to the caller. -/
theorem write_failure_no_rollback (cfg : Config) (w : World) (vm_id : Int)
    (sys : GovSys) (cores : List Int) (perr : Option PyErr) (k : Nat)
    (stp : GovState)
    (haff : affinities w vm_id = (cores, perr))
    (hk : k < cores.length)
    (hpre : ∀ c ∈ cores.take k, sys.writable c = true)
    (hfail : sys.writable cores[k] = false)
    (hstop : cfg.stopped_state = some stp) :
    (on_start cfg w vm_id sys =
      ((cores.take k).map (fun c => (c, cfg.started_state.value)),
        applyWrites cfg.started_state sys (cores.take k),
        some PyErr.osError) ∧
      ∀ c, c ∉ cores.take k →
        (on_start cfg w vm_id sys).2.1.gov c = sys.gov c) ∧
    (on_stop cfg w vm_id sys =
      ((cores.take k).map (fun c => (c, stp.value)),
        applyWrites stp sys (cores.take k), some PyErr.osError) ∧
      ∀ c, c ∉ cores.take k →
        (on_stop cfg w vm_id sys).2.1.gov c = sys.gov c) := by
  have h1 : on_start cfg w vm_id sys =
      ((cores.take k).map (fun c => (c, cfg.started_state.value)),
        applyWrites cfg.started_state sys (cores.take k),
        some PyErr.osError) := by
    simp [on_start, haff, runWrites_fail hk hpre hfail]
  have h2 : on_stop cfg w vm_id sys =
      ((cores.take k).map (fun c => (c, stp.value)),
        applyWrites stp sys (cores.take k), some PyErr.osError) := by
    simp [on_stop, haff, hstop, runWrites_fail hk hpre hfail]
  refine ⟨⟨h1, ?_⟩, h2, ?_⟩
  · intro c hc
    rw [h1]
    exact applyWrites_not_mem hc
  · intro c hc
    rw [h2]
    exact applyWrites_not_mem hc

theorem write_failure_no_rollback_witness :
    (on_start cfg0 w0 100 sysF).1 = [(0, "performance"), (2, "performance")] ∧
    (on_start cfg0 w0 100 sysF).2.2 = some PyErr.osError ∧
    (on_start cfg0 w0 100 sysF).2.1.gov 3 = "schedutil" := by
  have h := write_failure_no_rollback cfg0 w0 100 sysF [0, 2, 3] none 2
    GovState.schedutil (by decide) (by decide) (by decide) (by decide) rfl
  exact ⟨by rw [h.1.1]; rfl, by rw [h.1.1],
    (h.1.2 3 (by decide)).trans rfl⟩

theorem mem_get_locations {w : World} {vm : Int} :
    (∃ p ∈ get_locations w, p.2 = vm) ↔
      ∃ n ∈ w.nodes, n.status ≠ "offline" ∧ vm ∈ n.vmids := by
  unfold get_locations
  constructor
  · rintro ⟨p, hp, hpv⟩
    rw [List.mem_flatMap] at hp
    obtain ⟨n, hn, hmap⟩ := hp
    rw [List.mem_filter] at hn
    rw [List.mem_map] at hmap
    obtain ⟨vid, hvid, rfl⟩ := hmap
    refine ⟨n, hn.1, by simpa using hn.2, ?_⟩
    simpa [← hpv] using hvid
  · rintro ⟨n, hn, hs, hv⟩
    refine ⟨(n.name, vm), ?_, rfl⟩
    rw [List.mem_flatMap]
    refine ⟨n, List.mem_filter.mpr ⟨hn, by simpa using hs⟩, ?_⟩
    rw [List.mem_map]
    exact ⟨vm, hv, rfl⟩

theorem find?_locations_none {w : World} {vm : Int}
    (h : ∀ n ∈ w.nodes, n.status ≠ "offline" → vm ∉ n.vmids) :
    (get_locations w).find? (fun p => p.2 == vm) = none := by
  rw [List.find?_eq_none]
  intro p hp hbeq
  have hpv : p.2 = vm := by simpa using hbeq
  obtain ⟨n, hn, hs, hv⟩ := mem_get_locations.mp ⟨p, hp, hpv⟩
  exact h n hn hs hv

/-- C3: `is_stopped` is true exactly when either no non-offline node's
VM listing contains the id, or the VM located by the first matching scan
entry has live status string exactly `"stopped"`; any other status gives
false, and the not-found case is an ordinary `true`, not an error. -/
theorem is_stopped_iff (w : World) (vm_id : Int) :
    is_stopped w vm_id = true ↔
      ((∀ n ∈ w.nodes, n.status ≠ "offline" → vm_id ∉ n.vmids) ∨
        ∃ node, (get_locations w).find? (fun p => p.2 == vm_id) =
            some (node, vm_id) ∧
          w.vmStatus node vm_id = "stopped") := by
  unfold is_stopped
  cases hfind : (get_locations w).find? (fun p => p.2 == vm_id) with
  | none =>
    refine iff_of_true rfl (Or.inl ?_)
    intro n hn hs hv
    rw [List.find?_eq_none] at hfind
    obtain ⟨p, hp, hpv⟩ := mem_get_locations.mpr ⟨n, hn, hs, hv⟩
    exact hfind p hp (by simpa using hpv)
  | some q =>
    obtain ⟨node, vid⟩ := q
    have hvid : vid = vm_id := by
      have := List.find?_some hfind
      simpa using this
    subst hvid
    have hmem : ((node, vid) : String × Int) ∈ get_locations w :=
      List.mem_of_find?_eq_some hfind
    constructor
    · intro h
      exact Or.inr ⟨node, rfl, by simpa using h⟩
    · rintro (hall | ⟨node2, hf, hs⟩)
      · exfalso
        obtain ⟨n, hn, hns, hv⟩ := mem_get_locations.mp ⟨_, hmem, rfl⟩
        exact hall n hn hns hv
      · have hnode : node2 = node :=
          (congrArg Prod.fst (Option.some.inj hf)).symm
        subst hnode
        simp [hs]

/-- C4: a VM id listed by no non-offline node makes `on_start` and
`on_stop` perform zero governor writes, leave the sysfs state untouched,
and fail with the not-found error (`KeyError`) raised before any write. -/
theorem vm_not_found_no_writes (cfg : Config) (w : World) (vm_id : Int)
    (sys : GovSys)
    (h : ∀ n ∈ w.nodes, n.status ≠ "offline" → vm_id ∉ n.vmids) :
    on_start cfg w vm_id sys = ([], sys, some PyErr.keyError) ∧
    on_stop cfg w vm_id sys = ([], sys, some PyErr.keyError) := by
  have hfind := find?_locations_none h
  have hget : getitem w vm_id = .error .keyError := by
    simp [getitem, hfind]
  have haff : affinities w vm_id = ([], some .keyError) := by
    simp [affinities, hget]
  exact ⟨by simp [on_start, haff, runWrites],
    by simp [on_stop, haff, runWrites]⟩

theorem vm_not_found_no_writes_witness :
    on_start cfg0 w0 999 sys0 = ([], sys0, some PyErr.keyError) ∧
    on_stop cfg0 w0 999 sys0 = ([], sys0, some PyErr.keyError) :=
  vm_not_found_no_writes cfg0 w0 999 sys0 (by decide)

/-- C9: a located VM whose config has an absent or empty affinity field
resolves to an empty core sequence, and `on_start`/`on_stop` perform zero
governor writes and finish without error. -/
theorem empty_affinity_no_writes (cfg : Config) (w : World) (vm_id : Int)
    (sys : GovSys) (vc : VmConfig)
    (hfound : getitem w vm_id = .ok vc)
    (hemp : vc.affinity = none ∨ vc.affinity = some "") :
    affinities w vm_id = ([], none) ∧
    on_start cfg w vm_id sys = ([], sys, none) ∧
    on_stop cfg w vm_id sys = ([], sys, none) := by
  have haff : affinities w vm_id = ([], none) := by
    rcases hemp with h | h <;> simp [affinities, hfound, h]
  exact ⟨haff, by simp [on_start, haff, runWrites],
    by simp [on_stop, haff, runWrites]⟩

theorem empty_affinity_no_writes_witness :
    affinities wE 7 = ([], none) ∧
    on_start cfg0 wE 7 sys0 = ([], sys0, none) ∧
    on_stop cfg0 wE 7 sys0 = ([], sys0, none) :=
  empty_affinity_no_writes cfg0 wE 7 sys0 ⟨none⟩ (by decide) (Or.inl rfl)

/-- C10: the optional lookup `get` is total on the not-found case: when
some non-offline node hosts the id it returns exactly what the required
lookup `__getitem__` returns, and when no node does it returns the
supplied default instead of raising `KeyError`. -/
theorem get_with_default (w : World) (vm_id : Int) (d : Option VmConfig) :
    ((∃ n ∈ w.nodes, n.status ≠ "offline" ∧ vm_id ∈ n.vmids) →
      ∃ c, getitem w vm_id = .ok c ∧ get w vm_id d = some c) ∧
    ((∀ n ∈ w.nodes, n.status ≠ "offline" → vm_id ∉ n.vmids) →
      get w vm_id d = d) := by
  constructor
  · intro hex
    obtain ⟨p, hp, hpv⟩ := mem_get_locations.mpr hex
    cases hfind : (get_locations w).find? (fun q => q.2 == vm_id) with
    | none =>
      rw [List.find?_eq_none] at hfind
      exact absurd (by simpa using hpv) (hfind p hp)
    | some q =>
      obtain ⟨node, vid⟩ := q
      exact ⟨w.vmConfig node vm_id, by simp [getitem, hfind],
        by simp [get, getitem, hfind]⟩
  · intro hall
    have hfind := find?_locations_none hall
    simp [get, getitem, hfind]

theorem get_with_default_witness :
    (∃ c, getitem w0 100 = .ok c ∧ get w0 100 none = some c) ∧
    get w0 999 none = none :=
  ⟨(get_with_default w0 100 none).1 (by decide),
    (get_with_default w0 999 none).2 (by decide)⟩

/-- C6 counterexample: constructing a config with `stopped_state = None`
succeeds, and the resulting `stopped_state` field holds no `GovState`
value at all — the `is not None` guard in `__post_init__` skips its
validation, so the two states are not independently validated at
construction time. -/
theorem config_none_stopped_counterexample :
    mkConfig "u" "p" (some "performance") none "localhost" false =
      .ok ⟨"u", "p", .performance, none, "localhost", false⟩ := by
  rfl

/-- C6 amended: `started_state` is always validated at construction — a
`None` or unrecognized value fails with `ValueError` — and a non-`None`
`stopped_state` input is likewise validated; but a `None` `stopped_state`
input skips validation and leaves the field holding `None` rather than a
valid `GovState`, deferring any failure to point of use. -/
theorem config_validation_amended (u p : String) (st sp : Option String)
    (hn : String) (vt : Bool) (cfg : Config)
    (h : mkConfig u p st sp hn vt = .ok cfg) :
    (∃ s, st = some s ∧ GovState.ofString? s = some cfg.started_state) ∧
    (sp = none → cfg.stopped_state = none) ∧
    (∀ t, sp = some t →
      ∃ g, GovState.ofString? t = some g ∧ cfg.stopped_state = some g) := by
  cases st with
  | none => simp [mkConfig] at h
  | some s =>
    cases hgs : GovState.ofString? s with
    | none => simp [mkConfig, hgs] at h
    | some gs =>
      cases sp with
      | none =>
        simp only [mkConfig, hgs] at h
        have hc : cfg = ⟨u, p, gs, none, hn, vt⟩ := (Except.ok.inj h).symm
        subst hc
        exact ⟨⟨s, rfl, hgs⟩, fun _ => rfl, fun t ht => by simp at ht⟩
      | some t =>
        cases hgt : GovState.ofString? t with
        | none => simp [mkConfig, hgs, hgt] at h
        | some gt =>
          simp only [mkConfig, hgs, hgt] at h
          have hc : cfg = ⟨u, p, gs, some gt, hn, vt⟩ :=
            (Except.ok.inj h).symm
          subst hc
          refine ⟨⟨s, rfl, hgs⟩, fun hx => by simp at hx, fun x hx => ?_⟩
          cases Option.some.inj hx
          exact ⟨gt, hgt, rfl⟩

theorem config_validation_amended_witness :
    (∃ s, (some "ondemand" : Option String) = some s ∧
      GovState.ofString? s =
        some (Config.started_state ⟨"u", "p", .ondemand, some .powersave,
          "h", true⟩)) ∧
    ((some "powersave" : Option String) = none →
      Config.stopped_state ⟨"u", "p", .ondemand, some .powersave, "h",
        true⟩ = none) ∧
    (∀ t, (some "powersave" : Option String) = some t →
      ∃ g, GovState.ofString? t = some g ∧
        Config.stopped_state ⟨"u", "p", .ondemand, some .powersave, "h",
          true⟩ = some g) :=
  config_validation_amended "u" "p" (some "ondemand") (some "powersave")
    "h" true ⟨"u", "p", .ondemand, some .powersave, "h", true⟩ (by rfl)

end CpuHook
